import Mathlib

/-!
Verification development for the kvy-xmls include preprocessor
(src/xml-compiler/src/main.rs).

The Rust program is embedded shallowly:

* text is modelled as List Char (string literals enter via String.data);
* the four regex-driven rewrites of main.rs (include directive matching,
  placeholder unwrapping, comment stripping, whitespace collapsing) are
  modelled as deterministic scanners that reproduce the leftmost-first,
  non-greedy semantics of the regex crate for the concrete patterns the
  program compiles;
* the filesystem is a total map from path strings to entries; reading an
  absent or unreadable entry yields the corresponding io-style error text;
* the recursive expander expand_includes is modelled with an explicit
  recursion-depth fuel (the Rust original recurses unboundedly and can
  diverge on cyclic includes; fuel exhaustion is modelled as the value
  none);
* the rayon par_iter loop of process_xml_files is modelled as a fold over
  one serialization of the task pool, given by the order of the input
  file list (rayon guarantees no particular order).

Character classes: the regex crate resolves a backslash-s class and
str::trim by the Unicode White_Space property, which is reproduced in
full below.  A backslash-d is the Unicode Nd category; the model keeps
its ASCII range (the digits 0-9), which is exact for ASCII file names.
Case-insensitive matching is modelled by ASCII case folding, exact for
the ASCII pattern literals involved.
-/

/-- Shorthand: the character list of a string literal. -/
def lc (s : String) : List Char := s.data

/-- The Unicode White_Space property, as matched by a backslash-s class
in the regex crate and by str::trim and char::is_whitespace in Rust. -/
def isUnicodeWs (c : Char) : Bool :=
  let n := c.toNat
  n = 0x20 || (0x9 ≤ n && n ≤ 0xD) || n = 0x85 || n = 0xA0 || n = 0x1680 ||
  (0x2000 ≤ n && n ≤ 0x200A) || n = 0x2028 || n = 0x2029 || n = 0x202F ||
  n = 0x205F || n = 0x3000

/-- ASCII decimal digit (the ASCII range of the regex class backslash-d). -/
def isAsciiDigit (c : Char) : Bool :=
  0x30 ≤ c.toNat && c.toNat ≤ 0x39

/-- ASCII lower-casing, modelling case-insensitive matching of the ASCII
pattern literal placeholder. -/
def lowerAscii (c : Char) : Char :=
  if 'A' ≤ c && c ≤ 'Z' then Char.ofNat (c.toNat + 32) else c

/-- Case-insensitive character comparison (ASCII folding). -/
def charEqCI (a b : Char) : Bool :=
  lowerAscii a = lowerAscii b

/-- Strip an exact prefix, returning the remainder. -/
def stripPrefixL : List Char → List Char → Option (List Char)
  | [], s => some s
  | _ :: _, [] => none
  | p :: ps, c :: cs => if c = p then stripPrefixL ps cs else none

/-- Exact prefix test. -/
def isPrefixL : List Char → List Char → Bool
  | [], _ => true
  | _ :: _, [] => false
  | p :: ps, c :: cs => (c = p) && isPrefixL ps cs

/-- Case-insensitive prefix test (ASCII folding). -/
def isPrefixCI : List Char → List Char → Bool
  | [], _ => true
  | _ :: _, [] => false
  | p :: ps, c :: cs => charEqCI p c && isPrefixCI ps cs

/-- Case-insensitive prefix stripping (ASCII folding). -/
def stripPrefixCI : List Char → List Char → Option (List Char)
  | [], s => some s
  | _ :: _, [] => none
  | p :: ps, c :: cs => if charEqCI p c then stripPrefixCI ps cs else none

/-- Exact suffix test. -/
def isSuffixL (p s : List Char) : Bool :=
  isPrefixL p.reverse s.reverse

/-- Substring test: does the needle occur anywhere in the haystack? -/
def containsSub (needle : List Char) : List Char → Bool
  | [] => needle.isEmpty
  | c :: cs => isPrefixL needle (c :: cs) || containsSub needle cs

/-- str::trim of Rust: remove leading and trailing Unicode whitespace. -/
def trimWs (s : List Char) : List Char :=
  ((s.dropWhile isUnicodeWs).reverse.dropWhile isUnicodeWs).reverse

/-!
Pattern matcher 1: the include directive regex of expand_includes,
compiled from the pattern
  lt bang dash dash, backslash-s-star, hash include file equals quote,
  dot-star non-greedy captured, quote, backslash-s-star, dash dash gt
with the dot not matching a newline (no s flag on this regex).
-/

/-- Capture scanner for the include regex: after the opening quote of the
file attribute, the non-greedy capture extends one character at a time
(never across a newline) until the first quote that is followed by
optional whitespace and the comment closer.  Returns the capture and the
text after the full match. -/
def captureScan : List Char → Option (List Char × List Char)
  | [] => none
  | c :: cs =>
    if c = '"' then
      match stripPrefixL (lc "-->") (cs.dropWhile isUnicodeWs) with
      | some rest => some ([], rest)
      | none =>
        match captureScan cs with
        | some (a, b) => some (c :: a, b)
        | none => none
    else if c = '\n' then none
    else
      match captureScan cs with
      | some (a, b) => some (c :: a, b)
      | none => none

/-- Try to match the include directive regex at the head of the text.
On success, return the capture (the raw file attribute) and the text
following the match. -/
def matchIncludeAt (s : List Char) : Option (List Char × List Char) :=
  match stripPrefixL (lc "<!--") s with
  | none => none
  | some s1 =>
    match stripPrefixL (lc "#include file=\"") (s1.dropWhile isUnicodeWs) with
    | none => none
    | some s2 => captureScan s2

/-- Leftmost include-directive match: the text before the match, the
capture, and the text after the match. -/
def findFirstInclude : List Char → Option (List Char × List Char × List Char)
  | [] => none
  | c :: cs =>
    match matchIncludeAt (c :: cs) with
    | some (cap, rest) => some ([], cap, rest)
    | none =>
      match findFirstInclude cs with
      | some (pre, cap, rest) => some (c :: pre, cap, rest)
      | none => none

/-- One forward pass of include_re.replace_all over the original text:
the list of (preceding text, capture) pairs for the non-overlapping
leftmost matches, and the unmatched tail.  The fuel bounds the number of
matches; expand_includes supplies length plus one, which is ample since
every match consumes at least one character. -/
def splitIncludes : Nat → List Char → List (List Char × List Char) × List Char
  | 0, s => ([], s)
  | f + 1, s =>
    match findFirstInclude s with
    | none => ([], s)
    | some (pre, cap, rest) =>
      let t := splitIncludes f rest
      ((pre, cap) :: t.1, t.2)

/-!
Pattern matcher 2: remove_placeholders, regex
  (question i s) lt placeholder, not-gt-star, gt, dot-star non-greedy
  captured, lt slash placeholder gt
replaced by the capture.
-/

/-- After the placeholder open tag, scan (non-greedily, across newlines,
case-insensitively) for the closing tag; return the capture and the text
after the closing tag. -/
def phBody : List Char → Option (List Char × List Char)
  | [] => none
  | c :: cs =>
    if isPrefixCI (lc "</placeholder>") (c :: cs) then
      some ([], (c :: cs).drop 14)
    else
      match phBody cs with
      | some (a, b) => some (c :: a, b)
      | none => none

/-- Consume the not-gt-star gt part of the placeholder open tag: skip to
and over the first gt character. -/
def dropThroughGt : List Char → Option (List Char)
  | [] => none
  | c :: cs => if c = '>' then some cs else dropThroughGt cs

/-- Try to match the placeholder regex at the head of the text; return
the inner capture and the text after the match. -/
def matchPlaceholderAt (s : List Char) : Option (List Char × List Char) :=
  match stripPrefixCI (lc "<placeholder") s with
  | none => none
  | some s1 =>
    match dropThroughGt s1 with
    | none => none
    | some s2 => phBody s2

/-- Fuelled scanner for remove_placeholders: replace every placeholder
block by its inner capture, in one left-to-right pass. -/
def rpAux : Nat → List Char → List Char
  | 0, s => s
  | _ + 1, [] => []
  | f + 1, c :: cs =>
    match matchPlaceholderAt (c :: cs) with
    | some (cap, rest) => cap ++ rpAux f rest
    | none => c :: rpAux f cs

/-- remove_placeholders of main.rs. -/
def removePlaceholders (s : List Char) : List Char :=
  rpAux s.length s

/-!
Pattern matcher 3: remove_comments, regex (question s) lt bang dash dash,
dot-star non-greedy, dash dash gt, replaced by the empty string.
-/

/-- After a comment opener, skip (non-greedily, across newlines) to the
first comment closer; return the text after it. -/
def commentRest : List Char → Option (List Char)
  | [] => none
  | c :: cs =>
    if isPrefixL (lc "-->") (c :: cs) then some ((c :: cs).drop 3)
    else commentRest cs

/-- Try to match the comment regex at the head of the text; return the
text after the match. -/
def matchCommentAt (s : List Char) : Option (List Char) :=
  match stripPrefixL (lc "<!--") s with
  | none => none
  | some s1 => commentRest s1

/-- Fuelled scanner for remove_comments: delete every comment span in
one left-to-right pass. -/
def rcAux : Nat → List Char → List Char
  | 0, s => s
  | _ + 1, [] => []
  | f + 1, c :: cs =>
    match matchCommentAt (c :: cs) with
    | some rest => rcAux f rest
    | none => c :: rcAux f cs

/-- remove_comments of main.rs. -/
def removeComments (s : List Char) : List Char :=
  rcAux s.length s

/-!
Pattern matcher 4: the whitespace run, regex backslash-s repeated two or
more times, replaced by a single space.
-/

/-- Fuelled scanner for the whitespace-run rewrite: every run of two or
more whitespace characters becomes one space; a lone whitespace
character is kept as it is. -/
def cwAux : Nat → List Char → List Char
  | 0, s => s
  | _ + 1, [] => []
  | _ + 1, [c] => [c]
  | f + 1, c1 :: c2 :: rest =>
    if isUnicodeWs c1 && isUnicodeWs c2 then
      ' ' :: cwAux f (rest.dropWhile isUnicodeWs)
    else
      c1 :: cwAux f (c2 :: rest)

/-- Collapse whitespace runs (the space_re.replace_all step). -/
def collapseWs (s : List Char) : List Char :=
  cwAux s.length s

/-- strip_comments_and_format_spaces of main.rs: remove comment spans,
then delete every newline, then every carriage return, then collapse
whitespace runs to single spaces. -/
def stripCommentsAndFormatSpaces (s : List Char) : List Char :=
  collapseWs (((removeComments s).filter (fun c => c ≠ '\n')).filter
    (fun c => c ≠ '\r'))

example : removeComments (lc "a<!-- x -->b") = lc "ab" := by decide

example : removePlaceholders (lc "a<PLACEHOLDER x=\"1\">in</placeholder>b") =
    lc "ainb" := by decide

example : collapseWs (lc "a  b \t c") = lc "a b c" := by decide

example :
    splitIncludes 50 (lc "A<!--#include file=\"p.xml\"-->B") =
      ([(lc "A", lc "p.xml")], lc "B") := by decide

/-!
Path resolver: normalize_include_path of main.rs, together with the
PathBuf operations it and expand_includes rely on (join, parent,
file_name).  Paths are modelled as character lists with the slash as
separator, matching the Unix semantics of std::path.
-/

/-- Path::join of Rust: an absolute right operand replaces the base;
otherwise the right operand is appended with a separator (none is added
after an empty base or a base that already ends in a slash). -/
def pathJoin (base p : List Char) : List Char :=
  if p.head? = some '/' then p
  else if base = [] then p
  else if base.getLast? = some '/' then base ++ p
  else base ++ '/' :: p

/-- Path::parent of Rust (with the unwrap_or fallback of expand_includes
mapping a missing parent to the dot path): the prefix before the last
separator; the empty path for a bare file name; the dot path for the
empty or root path. -/
def parentDir (p : List Char) : List Char :=
  if p = [] then lc "."
  else if p = lc "/" then lc "."
  else if p.contains '/' then
    let base := ((p.reverse.dropWhile (fun c => c ≠ '/')).drop 1).reverse
    if base = [] then lc "/" else base
  else []

/-- Path::file_name of Rust as used by process_xml_files: the component
after the last separator. -/
def lastComponent (p : List Char) : List Char :=
  (p.reverse.takeWhile (fun c => c ≠ '/')).reverse

/-- normalize_include_path of main.rs: on Windows the raw reference is
joined unmodified; elsewhere every backslash is first replaced by a
forward slash.  The win flag models cfg windows. -/
def normalizeIncludePath (win : Bool) (baseDir ref : List Char) : List Char :=
  let normalized :=
    if win then ref
    else ref.map (fun c => if c = '\\' then '/' else c)
  pathJoin baseDir normalized

/-!
Filesystem model.  An entry is a readable file with content, a
directory, an existing-but-unreadable file, or absent.  Path::exists is
true for any present entry; fs::read_to_string succeeds only on a
readable file and otherwise yields an io error text.
-/

/-- One filesystem entry. -/
inductive FsEntry where
  | file (content : List Char)
  | dirE
  | unreadable (err : List Char)
  | absent

/-- A filesystem: a total map from paths to entries. -/
def Fs := List Char → FsEntry

/-- Path::exists as used by expand_includes: any present entry. -/
def fsExists (fs : Fs) (p : List Char) : Bool :=
  match fs p with
  | FsEntry.absent => false
  | _ => true

/-- fs::read_to_string: content of a readable file, io-style error text
otherwise. -/
def fsRead (fs : Fs) (p : List Char) : Except (List Char) (List Char) :=
  match fs p with
  | FsEntry.file c => Except.ok c
  | FsEntry.dirE => Except.error (lc "Is a directory (os error 21)")
  | FsEntry.unreadable e => Except.error e
  | FsEntry.absent => Except.error (lc "No such file or directory (os error 2)")

/-- fs::write into the model filesystem (writes always succeed). -/
def writeFs (fs : Fs) (p c : List Char) : Fs :=
  fun q => if q = p then FsEntry.file c else fs q

/-!
The recursive expander expand_includes.  Log entries are modelled as the
message strings passed to log_message (the timestamp prefix is io glue),
in the order the side effects occur.  The result carries the expanded
text together with the log entries of the whole call; a read failure is
an error value, and exhausted recursion fuel is none.
-/

/-- The substituted marker for a missing include. -/
def notFoundMarker (ip : List Char) : List Char :=
  lc "<!-- Include not found: " ++ ip ++ lc " -->"

/-- The log entry for a missing include. -/
def missingMsg (ip : List Char) : List Char :=
  lc "Missing include: " ++ ip

/-- The log entry for a successful include. -/
def includedMsg (ip : List Char) : List Char :=
  lc "Included: " ++ ip

/-- The substituted marker when a recursive expansion fails. -/
def errorMarker (ip e : List Char) : List Char :=
  lc "<!-- Error including " ++ ip ++ lc ": " ++ e ++ lc " -->"

/-- The log entry when a recursive expansion fails. -/
def errorMsg (ip e : List Char) : List Char :=
  lc "Error including " ++ ip ++ lc ": " ++ e

/-- The CDATA wrapper applied to content spliced at root level. -/
def cdataWrap (inner : List Char) : List Char :=
  lc "<![CDATA[\n" ++ inner ++ lc "\n]]>"

/-- The replacement closure of include_re.replace_all, applied to the
match list of one recursion level in order.  recFn is the recursive
expander at the remaining recursion fuel; the result is the rebuilt body
preceding the unmatched tail, with the log entries of this level, or
none when recursion fuel ran out inside. -/
def processPairs
    (recFn : List Char → Bool → Option (Except (List Char) (List Char × List (List Char))))
    (win : Bool) (fs : Fs) (dir : List Char) (isRoot : Bool) :
    List (List Char × List Char) → Option (List Char × List (List Char))
  | [] => some ([], [])
  | (pre, cap) :: rest =>
    let ip := normalizeIncludePath win dir (trimWs cap)
    let step : Option (List Char × List (List Char)) :=
      if fsExists fs ip then
        match recFn ip false with
        | none => none
        | some (Except.error e) => some (errorMarker ip e, [errorMsg ip e])
        | some (Except.ok (t, lgs)) =>
          let inner := stripCommentsAndFormatSpaces (removePlaceholders t)
          some (if isRoot then cdataWrap inner else inner,
            lgs ++ [includedMsg ip])
      else some (notFoundMarker ip, [missingMsg ip])
    match step, processPairs recFn win fs dir isRoot rest with
    | some (repl, lgs1), some (rtxt, rlgs) =>
      some (pre ++ repl ++ rtxt, lgs1 ++ rlgs)
    | _, _ => none

/-- expand_includes of main.rs.  Reads the file, replaces every include
directive found in one forward pass over the original text (a missing
target becomes the not-found marker, an existing target is recursively
expanded with is_root false, then placeholder-unwrapped, then
comment-stripped and whitespace-flattened, and at root level wrapped in
a CDATA block), and finally returns the text as is at root level, or
placeholder-unwrapped and comment-stripped at non-root level. -/
def expandIncludes (win : Bool) (fs : Fs) :
    Nat → List Char → Bool → Option (Except (List Char) (List Char × List (List Char)))
  | 0, _, _ => none
  | fuel + 1, path, isRoot =>
    match fsRead fs path with
    | Except.error e => some (Except.error e)
    | Except.ok content =>
      let sp := splitIncludes (content.length + 1) content
      match processPairs (expandIncludes win fs fuel) win fs (parentDir path) isRoot sp.1 with
      | none => none
      | some (body, logs) =>
        let replaced := body ++ sp.2
        some (Except.ok
          (if isRoot then replaced
           else removeComments (removePlaceholders replaced), logs))

/-!
Batch driver.  File discovery models the WalkDir chain of
process_xml_files over an abstract listing of the input tree: entries
carry their component path below the input root and whether they are
regular files; min_depth 2 and max_depth 2 keep exactly the depth-two
entries, then the file-type filter and the file-name regex
  caret, backslash-d, underscore, dot-star, dot xml, dollar
apply.  The processing loop models the rayon par_iter as a fold over
one serialization of the pool (rayon fixes no order); a file whose
expansion fails is logged and skipped, a successful expansion is
written to the output directory under the bare file name.
-/

/-- One entry of the directory walk: its path components below the input
root and its file-type flag. -/
structure WalkEntry where
  rel : List (List Char)
  isFile : Bool
deriving DecidableEq

/-- The file-name pattern of process_xml_files: one digit, an
underscore, any characters other than newline, then a literal dot xml
at the very end. -/
def matchesFilePattern (name : List Char) : Bool :=
  match name with
  | d :: u :: rest =>
    isAsciiDigit d && (u = '_') && isSuffixL (lc ".xml") rest &&
      (rest.take (rest.length - 4)).all (fun c => c ≠ '\n')
  | _ => false

/-- The discovery chain of process_xml_files: depth bounds two to two,
regular files only, file name matching the pattern. -/
def discoverXmlFiles (es : List WalkEntry) : List WalkEntry :=
  ((es.filter (fun e => 2 ≤ e.rel.length && e.rel.length ≤ 2)).filter
      (fun e => e.isFile)).filter
    (fun e => matchesFilePattern (e.rel.getLastD []))

/-- The per-file loop of process_xml_files over one serialization of the
rayon pool: expand each file as root; on success write the result to the
output directory under the bare file name; on failure write nothing. -/
def runBatch (win : Bool) (fuel : Nat) (outDir : List Char) :
    List (List Char) → Fs → Fs
  | [], fs => fs
  | f :: rest, fs =>
    let fs' :=
      match expandIncludes win fs fuel f true with
      | some (Except.ok (txt, _)) => writeFs fs (pathJoin outDir (lastComponent f)) txt
      | _ => fs
    runBatch win fuel outDir rest fs'

example : parentDir (lc "R/sub/1_a.xml") = lc "R/sub" := by decide

example : lastComponent (lc "R/sub/1_a.xml") = lc "1_a.xml" := by decide

example : matchesFilePattern (lc "1_a.xml") = true := by decide

/-!
Concrete scenario filesystems used by the concrete theorems and
witnesses below.  Each claim has its own scenario.
-/

/-- Scenario for C1: a root document with one include whose target
exists and holds plain text. -/
def fsC1 : Fs := fun p =>
  if p = lc "R/sub/1_a.xml" then
    FsEntry.file (lc "X<!--#include file=\"p.xml\"-->Y")
  else if p = lc "R/sub/p.xml" then FsEntry.file (lc "hi")
  else FsEntry.absent

/-- Scenario for C2: the root includes a.xml, and a.xml contains an
include directive pointing at the missing m.xml; a second root 1_b.xml
contains the failing directive directly. -/
def fsC2 : Fs := fun p =>
  if p = lc "R/sub/1_a.xml" then
    FsEntry.file (lc "A<!--#include file=\"a.xml\"-->B")
  else if p = lc "R/sub/a.xml" then
    FsEntry.file (lc "C<!--#include file=\"m.xml\"-->D")
  else if p = lc "R/sub/1_b.xml" then
    FsEntry.file (lc "A<!--#include file=\"m.xml\"-->B")
  else FsEntry.absent

/-- Scenario for C3 (witness): a root with a missing first include and
an existing second include. -/
def fsC3 : Fs := fun p =>
  if p = lc "R/sub/1_a.xml" then
    FsEntry.file (lc "A<!--#include file=\"m.xml\"-->M<!--#include file=\"p.xml\"-->B")
  else if p = lc "R/sub/p.xml" then FsEntry.file (lc "hi")
  else FsEntry.absent

/-- Scenario for C4: two-level nesting; the root carries its own comment
with inner double space and a newline; b.xml carries newlines, runs of
whitespace, a comment and a placeholder block. -/
def fsC4 : Fs := fun p =>
  if p = lc "R/sub/1_a.xml" then
    FsEntry.file (lc "H<!-- keep  me -->\n<!--#include file=\"a.xml\"-->T")
  else if p = lc "R/sub/a.xml" then
    FsEntry.file (lc "U<!--#include file=\"b.xml\"-->V")
  else if p = lc "R/sub/b.xml" then
    FsEntry.file (lc "l1\n  l2  <!-- dead -->\t<PLACEHOLDER x=\"1\">in</placeholder>w")
  else FsEntry.absent

/-- Scenario for C5 (witness): a root with comments, a placeholder and
whitespace runs, but no include directive. -/
def fsC5 : Fs := fun p =>
  if p = lc "R/sub/1_a.xml" then
    FsEntry.file (lc "A  <!-- c -->\n<placeholder>x</placeholder>")
  else FsEntry.absent

/-- Scenario for the C6 counterexample: the capture of the single
directive ends in a quote, so the missing-include marker embeds a
complete directive pattern that the second batch run expands. -/
def fsC6 : Fs := fun p =>
  if p = lc "R/sub/1_a.xml" then
    FsEntry.file (lc "<!--#include file=\"<!--#include file=\"e.xml\"\" -->")
  else FsEntry.absent

/-- First batch run over the C6 counterexample tree: only the input file
is selected (the compiled directory is still empty). -/
def run1C6 : Fs := runBatch false 2 (lc "R/compiled") [lc "R/sub/1_a.xml"] fsC6

/-- Second batch run: the unchanged input file and the first run output,
which now sits at depth two below the root and matches the discovery
pattern, in one legal serialization of the rayon pool. -/
def run2C6 : Fs :=
  runBatch false 2 (lc "R/compiled") [lc "R/sub/1_a.xml", lc "R/compiled/1_a.xml"] run1C6

/-- Scenario for the C6 amended theorem witness: a root file with no
directives at all, whose output is a fixpoint of expansion. -/
def fsC6w : Fs := fun p =>
  if p = lc "R/sub/1_a.xml" then FsEntry.file (lc "hello")
  else FsEntry.absent

/-- Stability of one batch step: processing the file f against the
filesystem fs either fails (writing nothing) or expands to exactly the
bytes fs already holds at the output location of f, so the write of
that step changes nothing. -/
def expandStable (win : Bool) (fuel : Nat) (outDir : List Char)
    (fs : Fs) (f : List Char) : Prop :=
  match expandIncludes win fs fuel f true with
  | some (Except.ok (txt, _)) =>
    fs (pathJoin outDir (lastComponent f)) = FsEntry.file txt
  | _ => True

/-- The first batch run over the fixpoint scenario fsC6w. -/
def run1w : Fs := runBatch false 1 (lc "R/compiled") [lc "R/sub/1_a.xml"] fsC6w

/-- Scenario for C9: the root includes a.xml; a.xml includes b.xml and
is followed by a stray comment closer; b.xml holds an unclosed include
directive prefix; q.xml exists and would be revealed only by re-entrant
expansion of text formed by substitution. -/
def fsC9 : Fs := fun p =>
  if p = lc "R/sub/1_a.xml" then
    FsEntry.file (lc "X<!--#include file=\"a.xml\"-->Z")
  else if p = lc "R/sub/a.xml" then
    FsEntry.file (lc "P<!--#include file=\"b.xml\"-->-->Q")
  else if p = lc "R/sub/b.xml" then
    FsEntry.file (lc "<!-- #include file=\"q.xml\" ")
  else if p = lc "R/sub/q.xml" then FsEntry.file (lc "SECRET")
  else FsEntry.absent

/-- Scenario for C10 (witness): one unreadable input file next to a
readable one. -/
def fsC10 : Fs := fun p =>
  if p = lc "R/sub/1_u.xml" then
    FsEntry.unreadable (lc "stream did not contain valid UTF-8")
  else if p = lc "R/sub/1_ok.xml" then FsEntry.file (lc "ok")
  else FsEntry.absent

/-!
Helper lemmas shared by several claim theorems.
-/

/-- A text without any include-directive match splits into no pairs and
itself, at every fuel. -/
theorem splitIncludes_of_none (f : Nat) {s : List Char}
    (h : findFirstInclude s = none) : splitIncludes f s = ([], s) := by
  cases f <;> simp [splitIncludes, h]

/-- Expanding a readable file that contains no include-directive match
at root level returns its content unchanged, with no log entries: with
nothing to replace, the root path returns the text as is. -/
theorem expand_of_no_includes (win : Bool) (fs : Fs) (f : Nat)
    {p c : List Char} (h1 : fs p = FsEntry.file c)
    (h2 : findFirstInclude c = none) :
    expandIncludes win fs (f + 1) p true = some (Except.ok (c, [])) := by
  simp [expandIncludes, fsRead, h1, splitIncludes_of_none _ h2, processPairs]

/-!
Claim theorems.
-/

/-- Claim C1, counterexample: the claim states that no part of a root
expansion is wrapped in a CDATA escaping block, but main.rs wraps every
successfully expanded include spliced at root level (the is_root branch
of the replacement closure).  At this explicit input the root output
contains the CDATA opener. -/
theorem c1_cdata_wrap_counterexample :
    expandIncludes false fsC1 2 (lc "R/sub/1_a.xml") true =
      some (Except.ok (lc "X<![CDATA[\nhi\n]]>Y",
        [includedMsg (lc "R/sub/p.xml")])) ∧
    containsSub (lc "<![CDATA[") (lc "X<![CDATA[\nhi\n]]>Y") = true := by
  exact ⟨rfl, rfl⟩

/-- Claim C1 as amended: a root expansion never wraps the root document
as a whole in a CDATA block (the text before and after each directive
is preserved verbatim), but the content successfully expanded in place
of a root-level include directive is wrapped in a CDATA block. -/
theorem c1_amended_root_splice_cdata (win : Bool) (fs : Fs) (f : Nat)
    (path content pre cap tl ip t : List Char) (lg : List (List Char))
    (h1 : fs path = FsEntry.file content)
    (h2 : splitIncludes (content.length + 1) content = ([(pre, cap)], tl))
    (hip : ip = normalizeIncludePath win (parentDir path) (trimWs cap))
    (h3 : fsExists fs ip = true)
    (h4 : expandIncludes win fs f ip false = some (Except.ok (t, lg))) :
    expandIncludes win fs (f + 1) path true =
      some (Except.ok
        (pre ++ cdataWrap (stripCommentsAndFormatSpaces (removePlaceholders t)) ++ tl,
          lg ++ [includedMsg ip])) := by
  subst hip
  simp [expandIncludes, fsRead, h1, h2, processPairs, h3, h4]

/-- Witness for the amended C1 at the concrete C1 scenario. -/
theorem c1_amended_root_splice_cdata_witness :
    fsC1 (lc "R/sub/1_a.xml") =
      FsEntry.file (lc "X<!--#include file=\"p.xml\"-->Y") ∧
    splitIncludes ((lc "X<!--#include file=\"p.xml\"-->Y").length + 1)
        (lc "X<!--#include file=\"p.xml\"-->Y") =
      ([(lc "X", lc "p.xml")], lc "Y") ∧
    fsExists fsC1 (lc "R/sub/p.xml") = true ∧
    expandIncludes false fsC1 1 (lc "R/sub/p.xml") false =
      some (Except.ok (lc "hi", [])) ∧
    expandIncludes false fsC1 2 (lc "R/sub/1_a.xml") true =
      some (Except.ok
        (lc "X" ++
          cdataWrap (stripCommentsAndFormatSpaces (removePlaceholders (lc "hi"))) ++
            lc "Y",
          [] ++ [includedMsg (lc "R/sub/p.xml")])) := by
  refine ⟨rfl, rfl, rfl, rfl, ?_⟩
  exact c1_amended_root_splice_cdata false fsC1 1 (lc "R/sub/1_a.xml")
    (lc "X<!--#include file=\"p.xml\"-->Y") (lc "X") (lc "p.xml") (lc "Y")
    (lc "R/sub/p.xml") (lc "hi") [] rfl rfl rfl rfl rfl

/-- Claim C2: a missing-include marker substituted inside a non-root
document is removed again by the comment stripping of the non-root
return path and of the caller, so it never reaches the root output; the
same failing directive placed in the root document itself leaves the
marker in the output.  First scenario: the root includes a.xml, whose
directive points at the missing m.xml; the marker is logged but absent
from the output.  Second scenario: the failing directive sits in the
root and the marker survives. -/
theorem c2_nonroot_missing_marker_stripped :
    expandIncludes false fsC2 3 (lc "R/sub/1_a.xml") true =
      some (Except.ok (lc "A<![CDATA[\nCD\n]]>B",
        [missingMsg (lc "R/sub/m.xml"), includedMsg (lc "R/sub/a.xml")])) ∧
    containsSub (lc "Include not found") (lc "A<![CDATA[\nCD\n]]>B") = false ∧
    expandIncludes false fsC2 3 (lc "R/sub/1_b.xml") true =
      some (Except.ok (lc "A<!-- Include not found: R/sub/m.xml -->B",
        [missingMsg (lc "R/sub/m.xml")])) ∧
    containsSub (lc "Include not found")
        (lc "A<!-- Include not found: R/sub/m.xml -->B") = true := by
  exact ⟨rfl, rfl, rfl, rfl⟩

/-- Claim C3: when the first of two directives resolves to a missing
path, the not-found marker is substituted in its place, the missing
include is logged, and the second (sibling) directive and the rest of
the document are still processed, the expansion succeeding overall. -/
theorem c3_missing_include_marker_and_continue (win : Bool) (fs : Fs) (f : Nat)
    (path content p1 c1 p2 c2 tl ip1 ip2 t2 : List Char) (lg2 : List (List Char))
    (h1 : fs path = FsEntry.file content)
    (h2 : splitIncludes (content.length + 1) content = ([(p1, c1), (p2, c2)], tl))
    (hip1 : ip1 = normalizeIncludePath win (parentDir path) (trimWs c1))
    (hip2 : ip2 = normalizeIncludePath win (parentDir path) (trimWs c2))
    (h3 : fsExists fs ip1 = false)
    (h4 : fsExists fs ip2 = true)
    (h5 : expandIncludes win fs f ip2 false = some (Except.ok (t2, lg2))) :
    expandIncludes win fs (f + 1) path true =
      some (Except.ok
        (p1 ++ notFoundMarker ip1 ++ p2 ++
          cdataWrap (stripCommentsAndFormatSpaces (removePlaceholders t2)) ++ tl,
          missingMsg ip1 :: (lg2 ++ [includedMsg ip2]))) := by
  subst hip1
  subst hip2
  simp [expandIncludes, fsRead, h1, h2, processPairs, h3, h4, h5]

/-- Witness for C3 at the concrete C3 scenario. -/
theorem c3_missing_include_marker_and_continue_witness :
    fsC3 (lc "R/sub/1_a.xml") =
      FsEntry.file
        (lc "A<!--#include file=\"m.xml\"-->M<!--#include file=\"p.xml\"-->B") ∧
    fsExists fsC3 (lc "R/sub/m.xml") = false ∧
    fsExists fsC3 (lc "R/sub/p.xml") = true ∧
    expandIncludes false fsC3 2 (lc "R/sub/1_a.xml") true =
      some (Except.ok
        (lc "A" ++ notFoundMarker (lc "R/sub/m.xml") ++ lc "M" ++
          cdataWrap (stripCommentsAndFormatSpaces (removePlaceholders (lc "hi"))) ++
            lc "B",
          missingMsg (lc "R/sub/m.xml") ::
            ([] ++ [includedMsg (lc "R/sub/p.xml")]))) := by
  refine ⟨rfl, rfl, rfl, ?_⟩
  exact c3_missing_include_marker_and_continue false fsC3 1 (lc "R/sub/1_a.xml")
    (lc "A<!--#include file=\"m.xml\"-->M<!--#include file=\"p.xml\"-->B")
    (lc "A") (lc "m.xml") (lc "M") (lc "p.xml") (lc "B")
    (lc "R/sub/m.xml") (lc "R/sub/p.xml") (lc "hi") []
    rfl rfl rfl rfl rfl rfl rfl

/-- Claim C4: in the two-level nesting of the C4 scenario (root includes
a.xml, a.xml includes b.xml, b.xml has no directives), the content of
b.xml reaches the root output with its newline and tab runs flattened
to single spaces, its comment deleted and its placeholder block
unwrapped to the inner text, while the comment of the root document
itself, with its inner double space and the following newline, stays
byte-for-byte untouched. -/
theorem c4_two_level_flattening :
    expandIncludes false fsC4 3 (lc "R/sub/1_a.xml") true =
      some (Except.ok (lc "H<!-- keep  me -->\n<![CDATA[\nUl1 l2 inwV\n]]>T",
        [includedMsg (lc "R/sub/b.xml"), includedMsg (lc "R/sub/a.xml")])) ∧
    containsSub (lc "<!-- keep  me -->\n")
        (lc "H<!-- keep  me -->\n<![CDATA[\nUl1 l2 inwV\n]]>T") = true ∧
    containsSub (lc "l1 l2 inw")
        (lc "H<!-- keep  me -->\n<![CDATA[\nUl1 l2 inwV\n]]>T") = true ∧
    containsSub (lc "dead")
        (lc "H<!-- keep  me -->\n<![CDATA[\nUl1 l2 inwV\n]]>T") = false ∧
    containsSub (lc "placeholder")
        (lc "H<!-- keep  me -->\n<![CDATA[\nUl1 l2 inwV\n]]>T") = false := by
  exact ⟨rfl, rfl, rfl, rfl, rfl⟩

/-- Claim C5: a readable file without any include-directive match is
returned unchanged by a root expansion; the root path applies no
comment stripping, placeholder unwrapping or whitespace normalization
of its own. -/
theorem c5_no_directives_unchanged (win : Bool) (fs : Fs) (f : Nat)
    (p c : List Char) (h1 : fs p = FsEntry.file c)
    (h2 : findFirstInclude c = none) :
    expandIncludes win fs (f + 1) p true = some (Except.ok (c, [])) :=
  expand_of_no_includes win fs f h1 h2

/-- Witness for C5: the scenario file holds a comment, a placeholder
and a whitespace run, and comes back verbatim. -/
theorem c5_no_directives_unchanged_witness :
    fsC5 (lc "R/sub/1_a.xml") =
      FsEntry.file (lc "A  <!-- c -->\n<placeholder>x</placeholder>") ∧
    findFirstInclude (lc "A  <!-- c -->\n<placeholder>x</placeholder>") = none ∧
    expandIncludes false fsC5 1 (lc "R/sub/1_a.xml") true =
      some (Except.ok (lc "A  <!-- c -->\n<placeholder>x</placeholder>", [])) := by
  refine ⟨rfl, rfl, ?_⟩
  exact c5_no_directives_unchanged false fsC5 0 (lc "R/sub/1_a.xml")
    (lc "A  <!-- c -->\n<placeholder>x</placeholder>") rfl rfl

/-- Claim C6, counterexample: running the batch twice is not always
byte-identical.  The single input file of the C6 scenario has a
directive whose capture ends in a quote, so the first run output embeds
a complete directive pattern inside the missing-include marker.  The
second run re-selects the compiled output (it sits exactly two levels
below the root and matches the file pattern) and expands that embedded
directive, changing the bytes of the output file. -/
theorem c6_rerun_not_byte_identical_counterexample :
    fsRead run1C6 (lc "R/compiled/1_a.xml") =
      Except.ok (lc "<!-- Include not found: R/sub/<!--#include file=\"e.xml\" -->") ∧
    fsRead run2C6 (lc "R/compiled/1_a.xml") =
      Except.ok
        (lc "<!-- Include not found: R/sub/<!-- Include not found: R/compiled/e.xml -->") ∧
    lc "<!-- Include not found: R/sub/<!--#include file=\"e.xml\" -->" ≠
      lc "<!-- Include not found: R/sub/<!-- Include not found: R/compiled/e.xml -->" := by
  refine ⟨rfl, rfl, by decide⟩

/-- A batch run in which every step is stable leaves the filesystem
unchanged: each processed file either fails (writing nothing) or its
write rewrites the bytes already at its output location. -/
theorem runBatch_of_stable (win : Bool) (fuel : Nat) (outDir : List Char) :
    ∀ (files : List (List Char)) (fs : Fs),
      (∀ f ∈ files, expandStable win fuel outDir fs f) →
      runBatch win fuel outDir files fs = fs := by
  intro files
  induction files with
  | nil => intro fs _; rfl
  | cons f rest ih =>
    intro fs h
    have hf : expandStable win fuel outDir fs f := h f (List.mem_cons_self f rest)
    have hrest : ∀ g ∈ rest, expandStable win fuel outDir fs g :=
      fun g hg => h g (List.mem_cons_of_mem f hg)
    have hfs : (match expandIncludes win fs fuel f true with
        | some (Except.ok (txt, _)) =>
          writeFs fs (pathJoin outDir (lastComponent f)) txt
        | _ => fs) = fs := by
      unfold expandStable at hf
      cases hexp : expandIncludes win fs fuel f true with
      | none => rfl
      | some r =>
        cases r with
        | error e => rfl
        | ok pr =>
          obtain ⟨txt, lgs⟩ := pr
          have hb : fs (pathJoin outDir (lastComponent f)) = FsEntry.file txt := by
            rw [hexp] at hf
            exact hf
          funext q
          show (if q = pathJoin outDir (lastComponent f) then FsEntry.file txt
            else fs q) = fs q
          by_cases hq : q = pathJoin outDir (lastComponent f)
          · rw [if_pos hq, hq, hb]
          · rw [if_neg hq]
    simp only [runBatch, hfs]
    exact ih fs hrest

/-- Claim C6 as amended: a second batch run over the tree as the first
run left it is byte-identical (it changes no file) provided every file
it selects is stable there: its expansion either fails or yields
exactly the bytes already sitting at its output location.  In
particular a re-selected compiled output whose own path is its output
location and whose content contains no include-directive match is
always stable, since such a file expands to itself.  Without the
proviso the bytes can change: see the counterexample, and likewise an
input whose include resolves into the output directory only once the
first run has populated it. -/
theorem c6_amended_second_run_rewrites_identical_bytes
    (win : Bool) (fuel : Nat) (outDir : List Char)
    (files1 files2 : List (List Char)) (fs0 : Fs)
    (hstable : ∀ f ∈ files2,
      expandStable win fuel outDir (runBatch win fuel outDir files1 fs0) f) :
    runBatch win fuel outDir files2 (runBatch win fuel outDir files1 fs0) =
      runBatch win fuel outDir files1 fs0 ∧
    ∀ (fs : Fs) (g : Nat) (f txt : List Char),
      pathJoin outDir (lastComponent f) = f → fs f = FsEntry.file txt →
      findFirstInclude txt = none → expandStable win (g + 1) outDir fs f := by
  constructor
  · exact runBatch_of_stable win fuel outDir files2 _ hstable
  · intro fs g f txt hout hread hnone
    unfold expandStable
    rw [expand_of_no_includes win fs g hread hnone, hout]
    exact hread

/-- Witness for the amended C6 at the fixpoint scenario fsC6w: after
the first run, both the unchanged input and the re-selected compiled
output are stable, and the second run leaves the filesystem equal. -/
theorem c6_amended_second_run_rewrites_identical_bytes_witness :
    expandStable false 1 (lc "R/compiled") run1w (lc "R/sub/1_a.xml") ∧
    expandStable false 1 (lc "R/compiled") run1w (lc "R/compiled/1_a.xml") ∧
    runBatch false 1 (lc "R/compiled")
        [lc "R/sub/1_a.xml", lc "R/compiled/1_a.xml"] run1w = run1w := by
  refine ⟨rfl, rfl, ?_⟩
  have hstable : ∀ f ∈ [lc "R/sub/1_a.xml", lc "R/compiled/1_a.xml"],
      expandStable false 1 (lc "R/compiled")
        (runBatch false 1 (lc "R/compiled") [lc "R/sub/1_a.xml"] fsC6w) f := by
    intro f hf
    rcases List.mem_cons.mp hf with rfl | hf2
    · exact rfl
    rcases List.mem_cons.mp hf2 with rfl | hf3
    · exact rfl
    exact absurd hf3 (List.not_mem_nil f)
  exact (c6_amended_second_run_rewrites_identical_bytes false 1 (lc "R/compiled")
    [lc "R/sub/1_a.xml"] [lc "R/sub/1_a.xml", lc "R/compiled/1_a.xml"] fsC6w
    hstable).1

/-- Claim C7: path resolution is total (it always yields a candidate
path), on the backslash-native platform the reference is joined onto
the including directory unmodified, on other platforms every backslash
is first replaced by a forward slash, and a backslash-separated
reference therefore resolves to the same candidate as the equivalent
forward-slash reference. -/
theorem c7_path_resolution_total_and_separator_normalization :
    ∀ dir ref : List Char,
      (∃ q, normalizeIncludePath true dir ref = q) ∧
      normalizeIncludePath true dir ref = pathJoin dir ref ∧
      normalizeIncludePath false dir ref =
        pathJoin dir (ref.map (fun c => if c = '\\' then '/' else c)) ∧
      normalizeIncludePath false dir (ref.map (fun c => if c = '\\' then '/' else c)) =
        normalizeIncludePath false dir ref := by
  intro dir ref
  refine ⟨⟨_, rfl⟩, rfl, rfl, ?_⟩
  have hmap : (ref.map (fun c => if c = '\\' then '/' else c)).map
      (fun c => if c = '\\' then '/' else c) =
      ref.map (fun c => if c = '\\' then '/' else c) := by
    induction ref with
    | nil => rfl
    | cons c cs ih =>
      simp only [List.map_cons, ih, List.cons.injEq, and_true]
      by_cases h : c = '\\' <;> simp [h]
  simp [normalizeIncludePath, hmap]

/-- Claim C8: discovery selects an entry of the walked tree exactly when
it is a regular file whose path is exactly two directory levels below
the input root and whose file name matches the pattern of one ASCII
digit, an underscore, newline-free middle characters and a final dot
xml, matched case-sensitively; the concrete conjuncts pin the pattern
behavior down at sample names. -/
theorem c8_discovery_depth_and_pattern :
    (∀ (es : List WalkEntry) (e : WalkEntry),
      e ∈ discoverXmlFiles es ↔
        e ∈ es ∧ e.rel.length = 2 ∧ e.isFile = true ∧
          matchesFilePattern (e.rel.getLastD []) = true) ∧
    matchesFilePattern (lc "1_a.xml") = true ∧
    matchesFilePattern (lc "1_.xml") = true ∧
    matchesFilePattern (lc "1_a.XML") = false ∧
    matchesFilePattern (lc "12_a.xml") = false ∧
    matchesFilePattern (lc "a_1.xml") = false ∧
    matchesFilePattern (lc "1_axml") = false ∧
    (discoverXmlFiles [⟨[lc "1_a.xml"], true⟩] = []) ∧
    (discoverXmlFiles [⟨[lc "sub", lc "x", lc "1_a.xml"], true⟩] = []) ∧
    (discoverXmlFiles [⟨[lc "sub", lc "1_a.xml"], true⟩] =
      [⟨[lc "sub", lc "1_a.xml"], true⟩]) ∧
    (discoverXmlFiles [⟨[lc "sub", lc "1_a.xml"], false⟩] = []) := by
  refine ⟨?_, rfl, rfl, rfl, rfl, rfl, rfl, rfl, rfl, rfl, rfl⟩
  intro es e
  simp only [discoverXmlFiles, List.mem_filter, Bool.and_eq_true, decide_eq_true_eq]
  constructor
  · rintro ⟨⟨⟨he, hd1, hd2⟩, hf⟩, hp⟩
    exact ⟨he, Nat.le_antisymm hd2 hd1, hf, hp⟩
  · rintro ⟨he, hd, hf, hp⟩
    exact ⟨⟨⟨he, by omega, by omega⟩, hf⟩, hp⟩

/-- Claim C9: directive replacement is one forward pass over the
matches of the original text of each level.  In the C9 scenario the
text substituted for the include of b.xml inside a.xml, together with
the adjacent stray comment closer of a.xml, forms a complete include
directive naming the existing q.xml; that newly formed occurrence is
never expanded: q.xml stays unread (its content is absent from the
output and no Included log entry names it), and only the explicit
recursive call into included files expands nested directives. -/
theorem c9_single_pass_no_reentrant_expansion :
    expandIncludes false fsC9 3 (lc "R/sub/1_a.xml") true =
      some (Except.ok (lc "X<![CDATA[\nPQ\n]]>Z",
        [includedMsg (lc "R/sub/b.xml"), includedMsg (lc "R/sub/a.xml")])) ∧
    fsExists fsC9 (lc "R/sub/q.xml") = true ∧
    containsSub (lc "SECRET") (lc "X<![CDATA[\nPQ\n]]>Z") = false ∧
    includedMsg (lc "R/sub/q.xml") ∉
      [includedMsg (lc "R/sub/b.xml"), includedMsg (lc "R/sub/a.xml")] ∧
    containsSub (lc "<!-- #include file=\"q.xml\" -->")
      (lc "P" ++ lc "<!-- #include file=\"q.xml\" " ++ lc "-->Q") = true := by
  exact ⟨rfl, rfl, rfl, by decide, rfl⟩

/-- Claim C10: a root input whose read fails makes that root expansion
fail with the read error, and the batch loop then writes nothing for
that file and continues exactly as it would without it, leaving every
other file and the output locations untouched. -/
theorem c10_failed_root_expansion_no_output (win : Bool) (f : Nat) (fs : Fs)
    (p e outDir : List Char) (rest : List (List Char))
    (h : fs p = FsEntry.unreadable e) :
    expandIncludes win fs (f + 1) p true = some (Except.error e) ∧
    runBatch win (f + 1) outDir (p :: rest) fs =
      runBatch win (f + 1) outDir rest fs := by
  have h1 : expandIncludes win fs (f + 1) p true = some (Except.error e) := by
    simp [expandIncludes, fsRead, h]
  exact ⟨h1, by simp [runBatch, h1]⟩

/-- Witness for C10 at the concrete fsC10 scenario. -/
theorem c10_failed_root_expansion_no_output_witness :
    fsC10 (lc "R/sub/1_u.xml") =
      FsEntry.unreadable (lc "stream did not contain valid UTF-8") ∧
    expandIncludes false fsC10 1 (lc "R/sub/1_u.xml") true =
      some (Except.error (lc "stream did not contain valid UTF-8")) ∧
    runBatch false 1 (lc "R/compiled")
        [lc "R/sub/1_u.xml", lc "R/sub/1_ok.xml"] fsC10 =
      runBatch false 1 (lc "R/compiled") [lc "R/sub/1_ok.xml"] fsC10 := by
  refine ⟨rfl, ?_, ?_⟩
  · exact (c10_failed_root_expansion_no_output false 0 fsC10 (lc "R/sub/1_u.xml")
      (lc "stream did not contain valid UTF-8") (lc "R/compiled")
      [lc "R/sub/1_ok.xml"] rfl).1
  · exact (c10_failed_root_expansion_no_output false 0 fsC10 (lc "R/sub/1_u.xml")
      (lc "stream did not contain valid UTF-8") (lc "R/compiled")
      [lc "R/sub/1_ok.xml"] rfl).2
